import Mathlib

/-!
Verification of the College_Media background-job executor (`JobRunner`) and
the server bootstrap's dependency-handling helpers (`retryRequest`, the
circuit breaker and `callDependency`).

The JavaScript code is embedded shallowly:

* A JS `Error` carries only the data the code reads from it (its `message`).
* A promise returned by the wrapped operation is modelled by the time at
  which it settles and the value/error it settles with (`PromiseBehavior`);
  `settle = none` models a promise that never settles.
* The handler is stateful in JS (it may behave differently on each call), so
  it is modelled as a function from the payload and the 1-indexed invocation
  number to the behavior of the promise that invocation returns.
* `run` is an async loop; its observable behavior is collected in a
  `RunResult` trace: how many times the handler was invoked, the backoff
  delays awaited (in order), the dead-letter record (if any), and whether
  the returned promise resolves with a value, rejects with an error, or
  resolves with `undefined` (the loop body never ran).
* Console logging is a side effect not referenced by any claim and is not
  modelled.
-/

/-- A JS `Error`: the code only ever reads `error.message`. -/
structure JSError where
  message : String
deriving DecidableEq, Repr

/-- The error constructed by `_runWithTimeout`: `new Error("Job execution timed out")`. -/
def timeoutError : JSError := ⟨"Job execution timed out"⟩

/-- A JS plain object used as a job payload: a list of string fields. -/
def Payload : Type := List (String × String)

instance : DecidableEq Payload := inferInstanceAs (DecidableEq (List (String × String)))

/-- The empty object literal `\x7b\x7d`, the default payload of `run`. -/
def Payload.emptyObj : Payload := []

/-- Behavior of one promise: `settle = some (t, r)` means it settles at time
`t` with result `r` (`Except.ok` = resolve, `Except.error` = reject);
`settle = none` means it never settles. -/
structure PromiseBehavior (α : Type) where
  settle : Option (Nat × Except JSError α)

/-- The `JobRunner` class state set up by its constructor.  `handler p i` is
the behavior of the promise returned by the `i`-th invocation (1-indexed) of
`this.handler(payload)`.  `maxRetries` is an `Int` because JS puts no sign
restriction on it. -/
structure JobRunner (α : Type) where
  jobName : String
  handler : Payload → Nat → PromiseBehavior α
  maxRetries : Int
  backoffMs : Nat
  timeoutMs : Nat

/-- The constructor
`constructor({ jobName, handler, maxRetries = 3, backoffMs = 2000, timeoutMs = 5000 })`:
omitted options (`none`) take the defaults. -/
def JobRunner.make {α : Type} (jobName : String)
    (handler : Payload → Nat → PromiseBehavior α)
    (maxRetries : Option Int) (backoffMs : Option Nat) (timeoutMs : Option Nat) :
    JobRunner α :=
  { jobName := jobName
    handler := handler
    maxRetries := maxRetries.getD 3
    backoffMs := backoffMs.getD 2000
    timeoutMs := timeoutMs.getD 5000 }

/-- `_runWithTimeout(promise, timeoutMs)`: races `promise` against a timer
that rejects with `timeoutError` at `timeoutMs`.  Returns the time at which
the race settles together with its result.  A promise settling at the same
instant the timer fires wins the race (promise reactions are microtasks and
run before timer callbacks).  The losing promise is not cancelled: its
behavior is an input left untouched, only its result is ignored. -/
def JobRunner.runWithTimeout {α : Type} (p : PromiseBehavior α) (timeoutMs : Nat) :
    Nat × Except JSError α :=
  match p.settle with
  | none => (timeoutMs, Except.error timeoutError)
  | some (t, r) => if t ≤ timeoutMs then (t, r) else (timeoutMs, Except.error timeoutError)

/-- The result of attempt `i` (1-indexed) inside `run`: the raced outcome of
`this._runWithTimeout(this.handler(payload), this.timeoutMs)`. -/
def JobRunner.attemptOutcome {α : Type} (jr : JobRunner α) (p : Payload) (i : Nat) :
    Except JSError α :=
  (JobRunner.runWithTimeout (jr.handler p i) jr.timeoutMs).2

/-- `_backoff(attempt)`: the delay awaited before the next attempt,
`this.backoffMs * attempt`. -/
def JobRunner.backoff {α : Type} (jr : JobRunner α) (attempt : Nat) : Nat :=
  jr.backoffMs * attempt

/-- How the promise returned by `run` finishes: resolves with a result,
rejects with an error, or resolves with `undefined` (the `while` loop body
never executed, so control falls off the end of the function). -/
inductive RunOutcome (α : Type) where
  | ok (a : α)
  | thrown (e : JSError)
  | undef
deriving DecidableEq, Repr

/-- `true` iff the outcome is a rejection. -/
def RunOutcome.isThrown {α : Type} : RunOutcome α → Bool
  | .thrown _ => true
  | _ => false

/-- The resolved value of an outcome, if any. -/
def RunOutcome.okValue {α : Type} : RunOutcome α → Option α
  | .ok a => some a
  | _ => none

/-- Observable trace of one call to `run`: number of handler invocations,
backoff delays awaited in order, the `_moveToDeadLetterQueue(error, payload)`
record if it was invoked, and the final outcome. -/
structure RunResult (α : Type) where
  attempts : Nat
  delays : List Nat
  deadLetter : Option (JSError × Payload)
  outcome : RunOutcome α
deriving DecidableEq

/-- The body of `run`'s `while (attempt <= this.maxRetries)` loop.
`attemptBefore` is the JS `attempt` counter before the iteration (it was
incremented `attemptBefore` times so far); `remaining` is the number of loop
iterations the guard still permits, i.e. `maxRetries + 1 - attemptBefore`
clamped at zero.  Inside an iteration the incremented counter is
`attemptBefore + 1`, and the JS test `attempt > this.maxRetries` (dead-letter
and rethrow instead of backing off) holds exactly when `remaining = 1`. -/
def JobRunner.runAux {α : Type} (jr : JobRunner α) (p : Payload)
    (attemptBefore : Nat) : Nat → RunResult α
  | 0 => { attempts := 0, delays := [], deadLetter := none, outcome := RunOutcome.undef }
  | r + 1 =>
    let attempt := attemptBefore + 1
    match jr.attemptOutcome p attempt with
    | Except.ok a =>
        { attempts := 1, delays := [], deadLetter := none, outcome := RunOutcome.ok a }
    | Except.error e =>
        if r = 0 then
          { attempts := 1, delays := [], deadLetter := some (e, p),
            outcome := RunOutcome.thrown e }
        else
          let rest := jr.runAux p attempt r
          { attempts := rest.attempts + 1
            delays := jr.backoff attempt :: rest.delays
            deadLetter := rest.deadLetter
            outcome := rest.outcome }

/-- `async run(payload = \x7b\x7d)`: `run none` models calling `run()` with no
argument, which defaults the payload to the empty object. -/
def JobRunner.run {α : Type} (jr : JobRunner α) (payload : Option Payload) : RunResult α :=
  jr.runAux (payload.getD Payload.emptyObj) 0 (jr.maxRetries + 1).toNat

/-!
Server bootstrap helpers (`src/unnamed/part_001`).
-/

/-- Trace of `retryRequest(fn, retries)`: how many times `fn` was invoked,
the waits between consecutive invocations, and the final settled result. -/
structure RetryTrace (α : Type) where
  calls : Nat
  delays : List Nat
  outcome : Except JSError α

/-- Recursive body of `retryRequest`.  `fn j` is the settled result of the
`j`-th invocation of `fn` (1-indexed); `i` is the index of the invocation
performed now, and `fuel` is the current value of `retries` (clamped at zero:
the JS test `retries <= 0` rethrows immediately for any non-positive value). -/
def retryRequestAux {α : Type} (fn : Nat → Except JSError α) (i : Nat) :
    Nat → RetryTrace α
  | 0 =>
    match fn i with
    | Except.ok a => { calls := 1, delays := [], outcome := Except.ok a }
    | Except.error e => { calls := 1, delays := [], outcome := Except.error e }
  | f + 1 =>
    match fn i with
    | Except.ok a => { calls := 1, delays := [], outcome := Except.ok a }
    | Except.error _ =>
      let rest := retryRequestAux fn (i + 1) f
      { calls := rest.calls + 1, delays := 500 :: rest.delays, outcome := rest.outcome }

/-- `const retryRequest = async (fn, retries = 2) => ...`: try `fn()`; on
failure, if `retries <= 0` rethrow, otherwise wait 500 ms and recurse with
`retries - 1`. -/
def retryRequest {α : Type} (fn : Nat → Except JSError α) (retries : Int) : RetryTrace α :=
  retryRequestAux fn 1 retries.toNat

/-- The two module-level mutable variables backing the circuit breaker:
`let dependencyFailures = 0; let circuitOpenUntil = null;`. -/
structure CircuitState where
  dependencyFailures : Nat
  circuitOpenUntil : Option Nat
deriving DecidableEq, Repr

/-- The initial state of the module. -/
def CircuitState.init : CircuitState := { dependencyFailures := 0, circuitOpenUntil := none }

/-- `isCircuitOpen = () => circuitOpenUntil && Date.now() < circuitOpenUntil`;
`now` stands for `Date.now()`. -/
def isCircuitOpen (s : CircuitState) (now : Nat) : Bool :=
  match s.circuitOpenUntil with
  | none => false
  | some u => now < u

/-- `recordFailure`: increment the counter; at 5 or more failures open the
circuit until `Date.now() + 60 * 1000`. -/
def recordFailure (s : CircuitState) (now : Nat) : CircuitState :=
  let f := s.dependencyFailures + 1
  if 5 ≤ f then { dependencyFailures := f, circuitOpenUntil := some (now + 60 * 1000) }
  else { dependencyFailures := f, circuitOpenUntil := s.circuitOpenUntil }

/-- `recordSuccess`: reset the counter and close the circuit. -/
def recordSuccess (_ : CircuitState) : CircuitState :=
  { dependencyFailures := 0, circuitOpenUntil := none }

/-- Result of one `req.callDependency(config, fallback)` call: the updated
module state, the returned value, and whether the dependency was actually
invoked (`apiClient.request` was issued). -/
structure CallResult (α : Type) where
  state : CircuitState
  value : α
  invoked : Bool
deriving DecidableEq, Repr

/-- `req.callDependency(config, fallback = null)`: if the circuit is open,
serve the fallback without touching the dependency; otherwise issue the call
(`dep` is the settled result of `retryRequest(() => apiClient.request(config))`),
record success and return `response.data`, or record failure and return the
fallback. -/
def callDependency {α : Type} (s : CircuitState) (now : Nat)
    (dep : Except JSError α) (fallback : α) : CallResult α :=
  if isCircuitOpen s now then
    { state := s, value := fallback, invoked := false }
  else
    match dep with
    | Except.ok data => { state := recordSuccess s, value := data, invoked := true }
    | Except.error _ => { state := recordFailure s now, value := fallback, invoked := true }

/-!
Theorems for the claims.
-/

/-- C8: a `JobRunner` constructed without explicit options uses
`maxRetries = 3`, `backoffMs = 2000`, `timeoutMs = 5000`, and `run` invoked
without an argument uses the empty object `\x7b\x7d` as payload. -/
theorem jobRunner_defaults {α : Type} (name : String)
    (h : Payload → Nat → PromiseBehavior α) (jr : JobRunner α) :
    (JobRunner.make name h none none none).maxRetries = 3 ∧
    (JobRunner.make name h none none none).backoffMs = 2000 ∧
    (JobRunner.make name h none none none).timeoutMs = 5000 ∧
    jr.run none = jr.run (some Payload.emptyObj) :=
  ⟨rfl, rfl, rfl, rfl⟩

/-- C9: with `maxRetries < 0` the loop guard `attempt <= this.maxRetries`
fails before the first iteration: the handler is never invoked, no backoff,
no dead-letter, no error; `run` resolves with `undefined`. -/
theorem run_negMaxRetries {α : Type} (jr : JobRunner α) (payload : Option Payload)
    (hm : jr.maxRetries < 0) :
    jr.run payload =
      { attempts := 0, delays := [], deadLetter := none, outcome := RunOutcome.undef } := by
  have hz : (jr.maxRetries + 1).toNat = 0 := by omega
  simp [JobRunner.run, hz, JobRunner.runAux]

/-- Witness for C9 at a concrete runner with `maxRetries = -1`. -/
theorem run_negMaxRetries_witness :
    (JobRunner.make "job" (fun _ _ => ⟨some (0, Except.ok (42 : Nat))⟩)
        (some (-1)) none none).run none =
      { attempts := 0, delays := [], deadLetter := none, outcome := RunOutcome.undef } :=
  run_negMaxRetries _ none (by decide)

/-- Unfolding `runAux` on its last permitted iteration: the JS test
`attempt > this.maxRetries` holds, so a failure dead-letters and rethrows. -/
theorem runAux_one {α : Type} (jr : JobRunner α) (p : Payload) (a : Nat) :
    jr.runAux p a 1 =
      match jr.attemptOutcome p (a + 1) with
      | Except.ok v =>
          { attempts := 1, delays := [], deadLetter := none, outcome := RunOutcome.ok v }
      | Except.error e =>
          { attempts := 1, delays := [], deadLetter := some (e, p),
            outcome := RunOutcome.thrown e } := rfl

/-- Unfolding `runAux` when at least two iterations remain: a failure backs
off with `_backoff(attempt)` and continues the loop. -/
theorem runAux_cons {α : Type} (jr : JobRunner α) (p : Payload) (a r : Nat) :
    jr.runAux p a (r + 2) =
      match jr.attemptOutcome p (a + 1) with
      | Except.ok v =>
          { attempts := 1, delays := [], deadLetter := none, outcome := RunOutcome.ok v }
      | Except.error _ =>
          { attempts := (jr.runAux p (a + 1) (r + 1)).attempts + 1
            delays := jr.backoff (a + 1) :: (jr.runAux p (a + 1) (r + 1)).delays
            deadLetter := (jr.runAux p (a + 1) (r + 1)).deadLetter
            outcome := (jr.runAux p (a + 1) (r + 1)).outcome } := rfl

/-- If attempts `a + 1 .. a + r + 1` all fail, the loop backs off after each
failed attempt except the last (with delay `backoffMs * attemptNumber`), then
dead-letters the last error with the payload and rethrows it. -/
theorem runAux_allFail {α : Type} (jr : JobRunner α) (p : Payload) (e : Nat → JSError)
    (r : Nat) :
    ∀ a : Nat,
      (∀ i, a < i → i ≤ a + r + 1 → jr.attemptOutcome p i = Except.error (e i)) →
      jr.runAux p a (r + 1) =
        { attempts := r + 1
          delays := (List.range' (a + 1) r).map (fun i => jr.backoffMs * i)
          deadLetter := some (e (a + r + 1), p)
          outcome := RunOutcome.thrown (e (a + r + 1)) } := by
  induction r with
  | zero =>
    intro a h
    have h1 := h (a + 1) (by omega) (by omega)
    rw [runAux_one]
    simp [h1]
  | succ r ih =>
    intro a h
    have h1 := h (a + 1) (by omega) (by omega)
    have hrest := ih (a + 1) (fun i hi1 hi2 => h i (by omega) (by omega))
    have he : a + 1 + r + 1 = a + (r + 1) + 1 := by omega
    rw [he] at hrest
    rw [runAux_cons]
    simp only [h1]
    rw [hrest]
    simp [JobRunner.backoff, List.range'_succ]

/-- C1: for an operation failing on every attempt and `maxRetries = n ≥ 0`,
`run` invokes the handler exactly `n + 1` times, backs off after each failed
attempt except the last with delay `backoffMs * attemptNumber`, invokes
`_moveToDeadLetterQueue` exactly once with the last attempt's error and the
original payload, and rethrows that last error to the caller. -/
theorem run_allFail {α : Type} (jr : JobRunner α) (p : Payload) (n : Nat)
    (e : Nat → JSError)
    (hm : jr.maxRetries = (n : Int))
    (h : ∀ i, 1 ≤ i → i ≤ n + 1 → jr.attemptOutcome p i = Except.error (e i)) :
    jr.run (some p) =
      { attempts := n + 1
        delays := (List.range' 1 n).map (fun i => jr.backoffMs * i)
        deadLetter := some (e (n + 1), p)
        outcome := RunOutcome.thrown (e (n + 1)) } := by
  have hf : (jr.maxRetries + 1).toNat = n + 1 := by omega
  have hmain := runAux_allFail jr p e n 0 (fun i hi1 hi2 => h i (by omega) (by omega))
  simpa [JobRunner.run, hf] using hmain

/-- A concrete runner whose handler always rejects immediately. -/
def allFailRunner : JobRunner Nat :=
  JobRunner.make "always-fails" (fun _ _ => ⟨some (0, Except.error ⟨"boom"⟩)⟩)
    (some 2) (some 100) (some 50)

/-- Witness for C1: `maxRetries = 2` gives 3 attempts, delays 100 and 200,
one dead-letter record, and the error rethrown. -/
theorem run_allFail_witness :
    allFailRunner.run (some Payload.emptyObj) =
      { attempts := 3
        delays := [100, 200]
        deadLetter := some (⟨"boom"⟩, Payload.emptyObj)
        outcome := RunOutcome.thrown ⟨"boom"⟩ } := by
  rw [run_allFail allFailRunner Payload.emptyObj 2 (fun _ => ⟨"boom"⟩) rfl
    (fun i h1 h2 => rfl)]
  rfl

/-- If attempts `a + 1 .. a + k` fail and attempt `a + k + 1` succeeds, and at
least `k + 1` iterations remain, the loop backs off after each of the `k`
failures and returns the success value of attempt `k + 1`. -/
theorem runAux_failThenOk {α : Type} (jr : JobRunner α) (p : Payload) (e : Nat → JSError)
    (v : α) (k : Nat) :
    ∀ a r : Nat, k ≤ r →
      (∀ i, a < i → i ≤ a + k → jr.attemptOutcome p i = Except.error (e i)) →
      jr.attemptOutcome p (a + k + 1) = Except.ok v →
      jr.runAux p a (r + 1) =
        { attempts := k + 1
          delays := (List.range' (a + 1) k).map (fun i => jr.backoffMs * i)
          deadLetter := none
          outcome := RunOutcome.ok v } := by
  induction k with
  | zero =>
    intro a r hk hfail hok
    match r with
    | 0 =>
      rw [runAux_one]
      simp [hok]
    | r' + 1 =>
      rw [runAux_cons]
      simp [hok]
  | succ k ih =>
    intro a r hk hfail hok
    obtain ⟨r', rfl⟩ : ∃ r', r = r' + 1 := ⟨r - 1, by omega⟩
    have h1 := hfail (a + 1) (by omega) (by omega)
    have he : a + 1 + k + 1 = a + (k + 1) + 1 := by omega
    have hok' : jr.attemptOutcome p (a + 1 + k + 1) = Except.ok v := by rw [he]; exact hok
    have hrest := ih (a + 1) r' (by omega)
      (fun i hi1 hi2 => hfail i (by omega) (by omega)) hok'
    rw [runAux_cons]
    simp only [h1]
    rw [hrest]
    simp [JobRunner.backoff, List.range'_succ]

/-- C2: for an operation failing on attempts `1 .. k` and succeeding on
attempt `k + 1`, with `maxRetries ≥ k`, `run` returns the success value after
exactly `k + 1` handler invocations with exactly `k` backoff delays, the delay
after failed attempt `i` being `backoffMs * i`. -/
theorem run_failThenOk {α : Type} (jr : JobRunner α) (p : Payload) (k : Nat)
    (e : Nat → JSError) (v : α)
    (hm : (k : Int) ≤ jr.maxRetries)
    (hfail : ∀ i, 1 ≤ i → i ≤ k → jr.attemptOutcome p i = Except.error (e i))
    (hok : jr.attemptOutcome p (k + 1) = Except.ok v) :
    jr.run (some p) =
      { attempts := k + 1
        delays := (List.range' 1 k).map (fun i => jr.backoffMs * i)
        deadLetter := none
        outcome := RunOutcome.ok v } := by
  have hf : (jr.maxRetries + 1).toNat = jr.maxRetries.toNat + 1 := by omega
  have hok' : jr.attemptOutcome p (0 + k + 1) = Except.ok v := by
    simpa using hok
  have hmain := runAux_failThenOk jr p e v k 0 jr.maxRetries.toNat (by omega)
    (fun i hi1 hi2 => hfail i (by omega) (by omega)) hok'
  simpa [JobRunner.run, hf] using hmain

/-- A concrete runner whose handler rejects on its first invocation and
resolves with 7 on every later one. -/
def flakyRunner : JobRunner Nat :=
  JobRunner.make "fails-once"
    (fun _ i =>
      if i ≤ 1 then ⟨some (0, Except.error ⟨"flaky"⟩)⟩ else ⟨some (0, Except.ok 7)⟩)
    (some 3) (some 10) (some 50)

/-- Witness for C2: one failure then success gives 2 attempts, one delay of
`backoffMs * 1 = 10`, no dead-letter, and the success value. -/
theorem run_failThenOk_witness :
    flakyRunner.run (some Payload.emptyObj) =
      { attempts := 2
        delays := [10]
        deadLetter := none
        outcome := RunOutcome.ok 7 } := by
  rw [run_failThenOk flakyRunner Payload.emptyObj 1 (fun _ => ⟨"flaky"⟩) 7 (by decide)
    (fun i h1 h2 => by
      have hi : i = 1 := by omega
      subst hi
      rfl)
    rfl]
  rfl

/-- C5: for an operation succeeding on its first invocation (and a
configuration whose loop admits a first iteration, `maxRetries ≥ 0`), `run`
makes exactly one attempt and returns the operation's result unchanged. -/
theorem run_firstSuccess {α : Type} (jr : JobRunner α) (p : Payload) (v : α)
    (hm : 0 ≤ jr.maxRetries)
    (h1 : jr.attemptOutcome p 1 = Except.ok v) :
    jr.run (some p) =
      { attempts := 1, delays := [], deadLetter := none, outcome := RunOutcome.ok v } := by
  have hf : (jr.maxRetries + 1).toNat = jr.maxRetries.toNat + 1 := by omega
  have hmain := runAux_failThenOk jr p (fun _ => timeoutError) v 0 0 jr.maxRetries.toNat
    (by omega) (fun i hi1 hi2 => by omega) (by simpa using h1)
  simpa [JobRunner.run, hf] using hmain

/-- A concrete runner whose handler resolves with 42 immediately. -/
def promptRunner : JobRunner Nat :=
  JobRunner.make "succeeds" (fun _ _ => ⟨some (0, Except.ok 42)⟩) none none none

/-- Witness for C5: the first attempt succeeds, so one attempt, no delays, no
dead-letter, result returned unchanged. -/
theorem run_firstSuccess_witness :
    promptRunner.run (some Payload.emptyObj) =
      { attempts := 1, delays := [], deadLetter := none, outcome := RunOutcome.ok 42 } :=
  run_firstSuccess promptRunner Payload.emptyObj 42 (by decide) rfl

/-- Whatever the handler does, the delays awaited by the loop are
`backoffMs * i` for the consecutive attempt numbers `i` starting at the first
attempt of the loop. -/
theorem runAux_delays_linear {α : Type} (jr : JobRunner α) (p : Payload) :
    ∀ fuel a : Nat, ∃ m,
      (jr.runAux p a fuel).delays =
        (List.range' (a + 1) m).map (fun i => jr.backoffMs * i) := by
  intro fuel
  induction fuel with
  | zero =>
    intro a
    exact ⟨0, by simp [JobRunner.runAux]⟩
  | succ r ih =>
    intro a
    match r with
    | 0 =>
      refine ⟨0, ?_⟩
      rw [runAux_one]
      cases jr.attemptOutcome p (a + 1) <;> simp
    | r' + 1 =>
      cases hout : jr.attemptOutcome p (a + 1) with
      | ok v =>
        refine ⟨0, ?_⟩
        rw [runAux_cons]
        simp [hout]
      | error e =>
        obtain ⟨m, hm⟩ := ih (a + 1)
        refine ⟨m + 1, ?_⟩
        rw [runAux_cons]
        simp only [hout]
        rw [hm]
        simp [JobRunner.backoff, List.range'_succ]

/-- C3: `_backoff(i)` waits exactly `backoffMs * i`, and in any execution of
`run` the delays observed are `backoffMs * 1, backoffMs * 2, ...` for the
consecutive failed attempt numbers — linear in the attempt number, not
exponential. -/
theorem backoff_linear {α : Type} (jr : JobRunner α) (payload : Option Payload) :
    (∀ i, jr.backoff i = jr.backoffMs * i) ∧
    ∃ m, (jr.run payload).delays = (List.range' 1 m).map (fun i => jr.backoffMs * i) := by
  refine ⟨fun i => rfl, ?_⟩
  obtain ⟨m, hm⟩ :=
    runAux_delays_linear jr (payload.getD Payload.emptyObj) (jr.maxRetries + 1).toNat 0
  exact ⟨m, hm⟩

/-- C4: if the operation's promise does not settle within `timeoutMs`, the
attempt settles at `timeoutMs` with the timeout-specific error
`"Job execution timed out"`; the operation's eventual result or error is
discarded (the race result does not depend on it), and the operation itself
is not cancelled — its behavior is an input the race leaves untouched. -/
theorem runWithTimeout_timeout {α : Type} (p : PromiseBehavior α) (timeoutMs : Nat)
    (h : ∀ t r, p.settle = some (t, r) → timeoutMs < t) :
    JobRunner.runWithTimeout p timeoutMs = (timeoutMs, Except.error timeoutError) ∧
    (∀ (t : Nat) (r r' : Except JSError α), timeoutMs < t →
      JobRunner.runWithTimeout ⟨some (t, r)⟩ timeoutMs =
        JobRunner.runWithTimeout ⟨some (t, r')⟩ timeoutMs) := by
  constructor
  · cases hs : p.settle with
    | none => simp [JobRunner.runWithTimeout, hs]
    | some tr =>
      obtain ⟨t, r⟩ := tr
      have ht := h t r hs
      simp [JobRunner.runWithTimeout, hs, Nat.not_le.mpr ht]
  · intro t r r' ht
    simp [JobRunner.runWithTimeout, Nat.not_le.mpr ht]

/-- Witness for C4: a promise resolving with 5 at time 100 raced against a
50 ms timer loses; the attempt fails with the timeout error at time 50. -/
theorem runWithTimeout_timeout_witness :
    JobRunner.runWithTimeout (⟨some (100, Except.ok 5)⟩ : PromiseBehavior Nat) 50 =
      (50, Except.error timeoutError) := by
  have h := runWithTimeout_timeout (⟨some (100, Except.ok 5)⟩ : PromiseBehavior Nat) 50
    (by
      intro t r hh
      simp only [Option.some.injEq, Prod.mk.injEq] at hh
      omega)
  exact h.1

/-- The success part of an attempt result; two results with the same `okPart`
differ at most in which error they carry (operation-thrown or timeout). -/
def okPart {α : Type} : Except JSError α → Option α
  | Except.ok a => some a
  | Except.error _ => none

/-- Two runners that differ only in which errors their attempts produce (same
success pattern and success values, arbitrary reassignment of error values,
e.g. replacing operation-thrown errors by timeout errors) drive the loop
identically: same invocation count, same delays, dead-lettering in the same
runs, and the same resolved values and rejection behavior. -/
theorem runAux_error_blind {α : Type} (jr₁ jr₂ : JobRunner α) (p : Payload)
    (hb : jr₁.backoffMs = jr₂.backoffMs)
    (h : ∀ i, okPart (jr₁.attemptOutcome p i) = okPart (jr₂.attemptOutcome p i)) :
    ∀ fuel a : Nat,
      (jr₁.runAux p a fuel).attempts = (jr₂.runAux p a fuel).attempts ∧
      (jr₁.runAux p a fuel).delays = (jr₂.runAux p a fuel).delays ∧
      (jr₁.runAux p a fuel).deadLetter.isSome = (jr₂.runAux p a fuel).deadLetter.isSome ∧
      (jr₁.runAux p a fuel).outcome.okValue = (jr₂.runAux p a fuel).outcome.okValue ∧
      (jr₁.runAux p a fuel).outcome.isThrown = (jr₂.runAux p a fuel).outcome.isThrown := by
  intro fuel
  induction fuel with
  | zero =>
    intro a
    simp [JobRunner.runAux]
  | succ r ih =>
    intro a
    have hi := h (a + 1)
    cases h1 : jr₁.attemptOutcome p (a + 1) with
    | ok v1 =>
      cases h2 : jr₂.attemptOutcome p (a + 1) with
      | ok v2 =>
        have hv : v1 = v2 := by
          rw [h1, h2] at hi
          simpa [okPart] using hi
        subst hv
        match r with
        | 0 =>
          rw [runAux_one, runAux_one]
          simp [h1, h2, RunOutcome.okValue, RunOutcome.isThrown]
        | r' + 1 =>
          rw [runAux_cons, runAux_cons]
          simp [h1, h2, RunOutcome.okValue, RunOutcome.isThrown]
      | error e2 =>
        rw [h1, h2] at hi
        simp [okPart] at hi
    | error e1 =>
      cases h2 : jr₂.attemptOutcome p (a + 1) with
      | ok v2 =>
        rw [h1, h2] at hi
        simp [okPart] at hi
      | error e2 =>
        match r with
        | 0 =>
          rw [runAux_one, runAux_one]
          simp [h1, h2, RunOutcome.okValue, RunOutcome.isThrown]
        | r' + 1 =>
          obtain ⟨ha, hd, hl, ho, ht⟩ := ih (a + 1)
          rw [runAux_cons, runAux_cons]
          simp only [h1, h2]
          exact ⟨by simp [ha], by simp [hb, hd, JobRunner.backoff], by simp [hl],
            by simp [ho], by simp [ht]⟩

/-- C6: every error raised during an attempt — operation-thrown or produced by
the timeout race — is handled identically by `run`: replacing the error values
of a runner's attempts by any other errors (e.g. timeout errors) while keeping
the success pattern leaves the whole control trace unchanged — same number of
attempts (retries while attempts remain), dead-lettering in exactly the same
runs, and rejection of the returned promise in exactly the same runs.  No case
distinguishes error kinds. -/
theorem run_error_blind {α : Type} (jr₁ jr₂ : JobRunner α) (payload : Option Payload)
    (hm : jr₁.maxRetries = jr₂.maxRetries)
    (hb : jr₁.backoffMs = jr₂.backoffMs)
    (h : ∀ q i, okPart (jr₁.attemptOutcome q i) = okPart (jr₂.attemptOutcome q i)) :
    (jr₁.run payload).attempts = (jr₂.run payload).attempts ∧
    (jr₁.run payload).delays = (jr₂.run payload).delays ∧
    (jr₁.run payload).deadLetter.isSome = (jr₂.run payload).deadLetter.isSome ∧
    (jr₁.run payload).outcome.okValue = (jr₂.run payload).outcome.okValue ∧
    (jr₁.run payload).outcome.isThrown = (jr₂.run payload).outcome.isThrown := by
  have hmain := runAux_error_blind jr₁ jr₂ (payload.getD Payload.emptyObj) hb
    (fun i => h (payload.getD Payload.emptyObj) i)
    (jr₁.maxRetries + 1).toNat 0
  rw [JobRunner.run, JobRunner.run, ← hm]
  exact hmain

/-- A runner like `allFailRunner` but whose attempts all fail with the timeout
error instead (the handler's promise never settles). -/
def neverSettlesRunner : JobRunner Nat :=
  JobRunner.make "never-settles" (fun _ _ => ⟨none⟩) (some 2) (some 100) (some 50)

/-- Witness for C6: a runner always rejecting with `"boom"` and one always
failing by timeout produce identical control traces. -/
theorem run_error_blind_witness :
    (allFailRunner.run (some Payload.emptyObj)).attempts =
      (neverSettlesRunner.run (some Payload.emptyObj)).attempts ∧
    (allFailRunner.run (some Payload.emptyObj)).delays =
      (neverSettlesRunner.run (some Payload.emptyObj)).delays ∧
    (allFailRunner.run (some Payload.emptyObj)).deadLetter.isSome =
      (neverSettlesRunner.run (some Payload.emptyObj)).deadLetter.isSome ∧
    (allFailRunner.run (some Payload.emptyObj)).outcome.okValue =
      (neverSettlesRunner.run (some Payload.emptyObj)).outcome.okValue ∧
    (allFailRunner.run (some Payload.emptyObj)).outcome.isThrown =
      (neverSettlesRunner.run (some Payload.emptyObj)).outcome.isThrown :=
  run_error_blind allFailRunner neverSettlesRunner (some Payload.emptyObj) rfl rfl
    (fun _ _ => rfl)

/-- C7: the circuit breaker of the server bootstrap.  While the circuit is
open, `callDependency` serves the fallback without issuing the call and leaves
the state untouched; a `recordFailure` that reaches the threshold of 5
consecutive recorded failures opens the circuit until 60 seconds after the
crossing, so for every instant inside that cooldown window no call to the
dependency is issued; and `recordSuccess` resets the failure counter to zero
and closes the circuit. -/
theorem circuitBreaker_spec {α : Type} :
    (∀ (s : CircuitState) (now : Nat) (dep : Except JSError α) (fb : α),
      isCircuitOpen s now = true →
      callDependency s now dep fb = { state := s, value := fb, invoked := false }) ∧
    (∀ (s : CircuitState) (now : Nat),
      (recordFailure s now).dependencyFailures = s.dependencyFailures + 1 ∧
      (5 ≤ s.dependencyFailures + 1 →
        (recordFailure s now).circuitOpenUntil = some (now + 60 * 1000) ∧
        ∀ (t : Nat) (dep : Except JSError α) (fb : α), t < now + 60 * 1000 →
          callDependency (recordFailure s now) t dep fb =
            { state := recordFailure s now, value := fb, invoked := false })) ∧
    (∀ (s : CircuitState) (t : Nat),
      (recordSuccess s).dependencyFailures = 0 ∧
      (recordSuccess s).circuitOpenUntil = none ∧
      isCircuitOpen (recordSuccess s) t = false) := by
  refine ⟨?_, ?_, ?_⟩
  · intro s now dep fb hopen
    simp [callDependency, hopen]
  · intro s now
    constructor
    · by_cases h5 : 5 ≤ s.dependencyFailures + 1 <;> simp [recordFailure, h5]
    · intro h5
      have hopenUntil : (recordFailure s now).circuitOpenUntil = some (now + 60 * 1000) := by
        simp [recordFailure, h5]
      refine ⟨hopenUntil, ?_⟩
      intro t dep fb ht
      have hopen : isCircuitOpen (recordFailure s now) t = true := by
        simp [isCircuitOpen, hopenUntil, ht]
      simp [callDependency, hopen]
  · intro s t
    exact ⟨rfl, rfl, rfl⟩

/-- Witness for C7: with 4 recorded failures, a fifth failure at time 0 opens
the circuit; a call at time 59999 is served from the fallback without invoking
the dependency, and a success resets the state. -/
theorem circuitBreaker_spec_witness :
    callDependency { dependencyFailures := 5, circuitOpenUntil := some 100 } 50
        (Except.ok (1 : Nat)) 0 =
      { state := { dependencyFailures := 5, circuitOpenUntil := some 100 },
        value := 0, invoked := false } ∧
    callDependency (recordFailure { dependencyFailures := 4, circuitOpenUntil := none } 0)
        59999 (Except.ok (1 : Nat)) 0 =
      { state := recordFailure { dependencyFailures := 4, circuitOpenUntil := none } 0,
        value := 0, invoked := false } ∧
    (recordSuccess { dependencyFailures := 7, circuitOpenUntil := some 100 }).dependencyFailures
      = 0 := by
  refine ⟨?_, ?_, ?_⟩
  · exact (circuitBreaker_spec (α := Nat)).1
      { dependencyFailures := 5, circuitOpenUntil := some 100 } 50 (Except.ok 1) 0
      (by decide)
  · exact (((circuitBreaker_spec (α := Nat)).2.1
      { dependencyFailures := 4, circuitOpenUntil := none } 0).2 (by decide)).2
      59999 (Except.ok 1) 0 (by decide)
  · exact ((circuitBreaker_spec (α := Nat)).2.2
      { dependencyFailures := 7, circuitOpenUntil := some 100 } 0).1

/-- Characterization of `retryRequestAux`: starting at invocation `i` with
`fuel` retries left, at least one and at most `fuel + 1` invocations occur,
every wait between them is exactly 500, every invocation before the last
fails, the outcome is the last invocation's result, and the last invocation
either succeeded or exhausted the retries. -/
theorem retryRequestAux_spec {α : Type} (fn : Nat → Except JSError α) :
    ∀ fuel i : Nat,
      1 ≤ (retryRequestAux fn i fuel).calls ∧
      (retryRequestAux fn i fuel).calls ≤ fuel + 1 ∧
      (retryRequestAux fn i fuel).delays =
        List.replicate ((retryRequestAux fn i fuel).calls - 1) 500 ∧
      (∀ j, i ≤ j → j + 1 < i + (retryRequestAux fn i fuel).calls →
        ∃ e, fn j = Except.error e) ∧
      (retryRequestAux fn i fuel).outcome = fn (i + (retryRequestAux fn i fuel).calls - 1) ∧
      ((∃ a, fn (i + (retryRequestAux fn i fuel).calls - 1) = Except.ok a) ∨
        (retryRequestAux fn i fuel).calls = fuel + 1) := by
  intro fuel
  induction fuel with
  | zero =>
    intro i
    have h0 : retryRequestAux fn i 0 = { calls := 1, delays := [], outcome := fn i } := by
      cases hfn : fn i <;> simp [retryRequestAux, hfn]
    rw [h0]
    dsimp only
    refine ⟨le_refl 1, by omega, by simp, ?_, ?_, Or.inr rfl⟩
    · intro j hj1 hj2
      exact absurd hj2 (by omega)
    · show fn i = fn (i + 1 - 1)
      congr 1
  | succ f ih =>
    intro i
    cases hfn : fn i with
    | ok a =>
      have h0 : retryRequestAux fn i (f + 1) =
          { calls := 1, delays := [], outcome := Except.ok a } := by
        simp [retryRequestAux, hfn]
      have hi : i + 1 - 1 = i := by omega
      rw [h0]
      dsimp only
      refine ⟨le_refl 1, by omega, by simp, ?_, ?_, Or.inl ⟨a, ?_⟩⟩
      · intro j hj1 hj2
        exact absurd hj2 (by omega)
      · show Except.ok a = fn (i + 1 - 1)
        rw [hi, hfn]
      · show fn (i + 1 - 1) = Except.ok a
        rw [hi, hfn]
    | error e =>
      have h0 : retryRequestAux fn i (f + 1) =
          { calls := (retryRequestAux fn (i + 1) f).calls + 1
            delays := 500 :: (retryRequestAux fn (i + 1) f).delays
            outcome := (retryRequestAux fn (i + 1) f).outcome } := by
        simp [retryRequestAux, hfn]
      obtain ⟨ih1, ih2, ih3, ih4, ih5, ih6⟩ := ih (i + 1)
      rw [h0]
      dsimp only
      have hidx : i + 1 + (retryRequestAux fn (i + 1) f).calls - 1 =
          i + ((retryRequestAux fn (i + 1) f).calls + 1) - 1 := by omega
      refine ⟨by omega, by omega, ?_, ?_, ?_, ?_⟩
      · show 500 :: (retryRequestAux fn (i + 1) f).delays =
          List.replicate ((retryRequestAux fn (i + 1) f).calls + 1 - 1) 500
        rw [ih3]
        have hc : (retryRequestAux fn (i + 1) f).calls + 1 - 1 =
            ((retryRequestAux fn (i + 1) f).calls - 1) + 1 := by omega
        rw [hc, List.replicate_succ]
      · intro j hj1 hj2
        by_cases hji : j = i
        · exact ⟨e, hji ▸ hfn⟩
        · exact ih4 j (by omega) (by omega)
      · show (retryRequestAux fn (i + 1) f).outcome =
          fn (i + ((retryRequestAux fn (i + 1) f).calls + 1) - 1)
        rw [ih5, hidx]
      · rcases ih6 with ⟨a, ha⟩ | hc
        · exact Or.inl ⟨a, by rw [← hidx]; exact ha⟩
        · exact Or.inr (by omega)

/-- C10: `retryRequest fn retries` with `retries = n ≥ 0` invokes `fn` at
least once and at most `n + 1` times, waits a fixed 500 ms between
consecutive invocations, fails every invocation before the last, returns the
last invocation's result (hence the first successful result), and the last
invocation either succeeded or was the `n + 1`-th (all failed, final error
rethrown). -/
theorem retryRequest_spec {α : Type} (fn : Nat → Except JSError α) (n : Nat) :
    1 ≤ (retryRequest fn (n : Int)).calls ∧
    (retryRequest fn (n : Int)).calls ≤ n + 1 ∧
    (retryRequest fn (n : Int)).delays =
      List.replicate ((retryRequest fn (n : Int)).calls - 1) 500 ∧
    (∀ j, 1 ≤ j → j < (retryRequest fn (n : Int)).calls → ∃ e, fn j = Except.error e) ∧
    (retryRequest fn (n : Int)).outcome = fn (retryRequest fn (n : Int)).calls ∧
    ((∃ a, fn (retryRequest fn (n : Int)).calls = Except.ok a) ∨
      (retryRequest fn (n : Int)).calls = n + 1) := by
  have ht : ((n : Int)).toNat = n := by omega
  simp only [retryRequest, ht]
  obtain ⟨h1, h2, h3, h4, h5, h6⟩ := retryRequestAux_spec fn n 1
  have hidx : 1 + (retryRequestAux fn 1 n).calls - 1 = (retryRequestAux fn 1 n).calls := by
    omega
  refine ⟨h1, by omega, h3, ?_, ?_, ?_⟩
  · intro j hj1 hj2
    exact h4 j hj1 (by omega)
  · rw [h5, hidx]
  · rcases h6 with ⟨a, ha⟩ | hc
    · exact Or.inl ⟨a, by rw [← hidx]; exact ha⟩
    · exact Or.inr hc
